import Mathlib

/-!
Verification of the large-file upload pipeline of the file-sharing portal
backend: the chunked upload engine, the token cache, the signed-URL cache
with background refresh, the progress notification channel, and the upload
orchestrator.  Each definition is a shallow embedding of the corresponding
JavaScript function; timestamps are milliseconds (Int), byte counts are Nat,
and opaque values (URLs, tokens, payloads) are represented by Nat ids.
-/

namespace UploadPipeline

/-! ### Chunked Upload Engine: sharePointService.uploadFile / largeFileUpload

The engine splits a large payload into chunks of `maxChunkSize = 4 * 1024 * 1024`
bytes (`const maxChunkSize = 4 * 1024 * 1024`), PUT-ting each chunk with a
`Content-Range: bytes start-end/total` header, in increasing offset order.
-/

def maxChunkSize : Nat := 4 * 1024 * 1024

inductive UploadPath
  | simple
  | large
deriving DecidableEq

/-- Dispatch inside `uploadFile`: `if (file.size < 4 * 1024 * 1024)` use
`simpleUpload` (single PUT), otherwise `largeFileUpload` (chunked session). -/
def uploadPathFor (size : Nat) : UploadPath :=
  if size < maxChunkSize then .simple else .large

/-- The (start, length) byte ranges of the chunk PUTs issued by the
`largeFileUpload` while-loop, beginning at offset `u`:
`while (uploadedBytes < fileSize) { chunk = buffer.slice(uploadedBytes,
min(uploadedBytes + maxChunkSize, fileSize)); ... uploadedBytes += chunk.length }`. -/
def chunkRangesAux (fileSize u : Nat) : List (Nat × Nat) :=
  if h : u < fileSize then
    (u, min maxChunkSize (fileSize - u)) ::
      chunkRangesAux fileSize (u + min maxChunkSize (fileSize - u))
  else []
termination_by fileSize - u
decreasing_by
  have hc : 0 < maxChunkSize := by decide
  omega

/-- All chunk PUT ranges of one large-file upload, in issue order. -/
def largeUploadChunks (fileSize : Nat) : List (Nat × Nat) :=
  chunkRangesAux fileSize 0

/-- The `Content-Range` triples (start, end, total) of the chunk PUTs:
the code sends `bytes uploadedBytes-(uploadedBytes + chunk.length - 1)/fileSize`. -/
def contentRanges (fileSize : Nat) : List (Nat × Nat × Nat) :=
  (largeUploadChunks fileSize).map (fun p => (p.1, p.1 + p.2 - 1, fileSize))

theorem chunkRangesAux_eq_nil_iff (fileSize u : Nat) :
    chunkRangesAux fileSize u = [] ↔ fileSize ≤ u := by
  rw [chunkRangesAux]
  split
  · simp; omega
  · simp; omega

theorem chunkRangesAux_sum (fileSize u : Nat) :
    ((chunkRangesAux fileSize u).map Prod.snd).sum = fileSize - u := by
  refine chunkRangesAux.induct fileSize
    (fun v => ((chunkRangesAux fileSize v).map Prod.snd).sum = fileSize - v) ?_ ?_ u
  · intro v h ih
    rw [chunkRangesAux]
    simp only [dif_pos h, List.map_cons, List.sum_cons, ih]
    omega
  · intro v h
    rw [chunkRangesAux]
    simp only [dif_neg h, List.map_nil, List.sum_nil]
    omega

theorem chunkRangesAux_length (fileSize u : Nat) :
    (chunkRangesAux fileSize u).length = (fileSize - u + maxChunkSize - 1) / maxChunkSize := by
  refine chunkRangesAux.induct fileSize
    (fun v => (chunkRangesAux fileSize v).length =
      (fileSize - v + maxChunkSize - 1) / maxChunkSize) ?_ ?_ u
  · intro v h ih
    rw [chunkRangesAux]
    simp only [dif_pos h, List.length_cons, ih]
    simp only [maxChunkSize] at *
    omega
  · intro v h
    rw [chunkRangesAux]
    simp only [dif_neg h, List.length_nil]
    simp only [maxChunkSize]
    omega

theorem chunkRangesAux_cons (fileSize u : Nat) (h : u < fileSize) :
    chunkRangesAux fileSize u =
      (u, min maxChunkSize (fileSize - u)) ::
        chunkRangesAux fileSize (u + min maxChunkSize (fileSize - u)) := by
  rw [chunkRangesAux]
  simp only [dif_pos h]

/-- Closed form for the i-th chunk PUT issued by the loop: it starts at
`u + maxChunkSize * i` and carries `min maxChunkSize (fileSize - start)` bytes. -/
theorem chunkRangesAux_get? (fileSize u : Nat) :
    ∀ (i : Nat), i < (chunkRangesAux fileSize u).length →
      (chunkRangesAux fileSize u).get? i =
        some (u + maxChunkSize * i,
          min maxChunkSize (fileSize - (u + maxChunkSize * i))) := by
  refine chunkRangesAux.induct fileSize
    (fun v => ∀ (i : Nat), i < (chunkRangesAux fileSize v).length →
      (chunkRangesAux fileSize v).get? i =
        some (v + maxChunkSize * i,
          min maxChunkSize (fileSize - (v + maxChunkSize * i)))) ?_ ?_ u
  · intro v h ih i hi
    rw [chunkRangesAux_cons fileSize v h] at hi ⊢
    match i with
    | 0 => simp
    | Nat.succ j =>
        simp only [List.length_cons, Nat.succ_lt_succ_iff] at hi
        simp only [List.get?_cons_succ]
        rw [ih j hi]
        have hlt : v + min maxChunkSize (fileSize - v) < fileSize := by
          by_contra hge
          push_neg at hge
          have hnil := (chunkRangesAux_eq_nil_iff fileSize
            (v + min maxChunkSize (fileSize - v))).mpr hge
          rw [hnil] at hi
          simp at hi
        have hmin : min maxChunkSize (fileSize - v) = maxChunkSize := by omega
        rw [hmin]
        have h1 : v + maxChunkSize + maxChunkSize * j = v + maxChunkSize * j.succ := by
          rw [Nat.succ_eq_add_one]
          ring
        rw [h1]
  · intro v h i hi
    rw [chunkRangesAux] at hi
    simp only [dif_neg h] at hi
    simp at hi

theorem largeUploadChunks_length (s : Nat) :
    (largeUploadChunks s).length = (s + maxChunkSize - 1) / maxChunkSize := by
  have h := chunkRangesAux_length s 0
  simpa [largeUploadChunks] using h

theorem largeUploadChunks_get? (s i : Nat) (hi : i < (largeUploadChunks s).length) :
    (largeUploadChunks s).get? i =
      some (maxChunkSize * i, min maxChunkSize (s - maxChunkSize * i)) := by
  have h := chunkRangesAux_get? s 0 i hi
  simpa [largeUploadChunks] using h

/-- C1: for a file of size `s ≥ 4 MiB` (exactly 4 MiB included, the small-file
test being strict `<`), `uploadFile` takes the large-file path and the engine
issues exactly `ceil(s / 4 MiB)` chunk PUTs whose Content-Range byte ranges
start at 0, are contiguous and strictly increasing (no overlap, no gap), with
every chunk exactly 4 MiB except a possibly shorter (but nonempty) last chunk,
and the range lengths sum to `s`. -/
theorem chunk_put_partition (s : Nat) (hs : maxChunkSize ≤ s) :
    uploadPathFor s = UploadPath.large ∧
    (contentRanges s).length = (s + maxChunkSize - 1) / maxChunkSize ∧
    ((largeUploadChunks s).map Prod.snd).sum = s ∧
    (largeUploadChunks s).get? 0 = some (0, maxChunkSize) ∧
    (∀ i r r', (largeUploadChunks s).get? i = some r →
      (largeUploadChunks s).get? (i + 1) = some r' →
      r'.1 = r.1 + r.2 ∧ r.1 < r'.1) ∧
    (∀ i r, (largeUploadChunks s).get? i = some r →
      (i + 1 < (largeUploadChunks s).length → r.2 = maxChunkSize) ∧
      0 < r.2 ∧ r.2 ≤ maxChunkSize) ∧
    (∀ i r, (largeUploadChunks s).get? i = some r →
      (contentRanges s).get? i = some (r.1, r.1 + r.2 - 1, s)) := by
  have hlen := largeUploadChunks_length s
  refine ⟨?_, ?_, ?_, ?_, ?_, ?_, ?_⟩
  · unfold uploadPathFor
    rw [if_neg (Nat.not_lt.mpr hs)]
  · unfold contentRanges
    rw [List.length_map, hlen]
  · have h := chunkRangesAux_sum s 0
    simpa [largeUploadChunks] using h
  · have hpos : 0 < (largeUploadChunks s).length := by
      rw [hlen]
      simp only [maxChunkSize] at hs ⊢
      omega
    rw [largeUploadChunks_get? s 0 hpos]
    have hmin : min maxChunkSize (s - 0) = maxChunkSize := by omega
    rw [Nat.mul_zero, hmin]
  · intro i r r' hr hr'
    have hi : i < (largeUploadChunks s).length := (List.get?_eq_some.mp hr).1
    have hi' : i + 1 < (largeUploadChunks s).length := (List.get?_eq_some.mp hr').1
    rw [largeUploadChunks_get? s i hi] at hr
    rw [largeUploadChunks_get? s (i + 1) hi'] at hr'
    have hre : r = (maxChunkSize * i, min maxChunkSize (s - maxChunkSize * i)) :=
      Option.some.inj hr.symm
    have hre' : r' = (maxChunkSize * (i + 1),
        min maxChunkSize (s - maxChunkSize * (i + 1))) :=
      Option.some.inj hr'.symm
    rw [hlen] at hi'
    rw [hre, hre']
    simp only [maxChunkSize] at *
    constructor
    · omega
    · omega
  · intro i r hr
    have hi : i < (largeUploadChunks s).length := (List.get?_eq_some.mp hr).1
    rw [largeUploadChunks_get? s i hi] at hr
    have hre : r = (maxChunkSize * i, min maxChunkSize (s - maxChunkSize * i)) :=
      Option.some.inj hr.symm
    rw [hlen] at hi
    rw [hre]
    simp only [maxChunkSize] at *
    refine ⟨?_, ?_, ?_⟩
    · intro hnext
      omega
    · omega
    · omega
  · intro i r hr
    unfold contentRanges
    rw [List.get?_map, hr]
    rfl

/-- Witness: a 10 MiB file takes the large path, in 3 chunks of 4+4+2 MiB. -/
theorem chunk_put_partition_witness :
    maxChunkSize ≤ 10485760 ∧
    (uploadPathFor 10485760 = UploadPath.large ∧
      (contentRanges 10485760).length = (10485760 + maxChunkSize - 1) / maxChunkSize ∧
      ((largeUploadChunks 10485760).map Prod.snd).sum = 10485760 ∧
      (largeUploadChunks 10485760).get? 0 = some (0, maxChunkSize) ∧
      (∀ i r r', (largeUploadChunks 10485760).get? i = some r →
        (largeUploadChunks 10485760).get? (i + 1) = some r' →
        r'.1 = r.1 + r.2 ∧ r.1 < r'.1) ∧
      (∀ i r, (largeUploadChunks 10485760).get? i = some r →
        (i + 1 < (largeUploadChunks 10485760).length → r.2 = maxChunkSize) ∧
        0 < r.2 ∧ r.2 ≤ maxChunkSize) ∧
      (∀ i r, (largeUploadChunks 10485760).get? i = some r →
        (contentRanges 10485760).get? i = some (r.1, r.1 + r.2 - 1, 10485760))) :=
  ⟨by decide, chunk_put_partition 10485760 (by decide)⟩

/-! ### Progress reporting (uploadFile with an onProgress callback, part_007)

`Math.round((uploadedBytes / fileSize) * 100)` is embedded as the exact
rational rounding `floor(100*u/s + 1/2) = (200*u + s) / (2*s)`; for the
integer byte counts involved this agrees with the JavaScript float
evaluation, and the properties proved below (monotonicity, final value 100)
hold for either reading.
-/

def jsRound100 (u s : Nat) : Nat := (200 * u + s) / (2 * s)

/-- Progress percents reported by the `largeFileUpload` chunk loop from
offset `u` on: after each chunk the code runs `uploadedBytes += chunk.length;
onProgress(Math.round((uploadedBytes / fileSize) * 100))`. -/
def largeUploadEventsAux (fileSize u : Nat) : List Nat :=
  if h : u < fileSize then
    jsRound100 (u + min maxChunkSize (fileSize - u)) fileSize ::
      largeUploadEventsAux fileSize (u + min maxChunkSize (fileSize - u))
  else []
termination_by fileSize - u
decreasing_by
  have hc : 0 < maxChunkSize := by decide
  omega

/-- The full sequence of percents passed to `onProgress` by a successful
`uploadFile(siteId, driveId, file, accessToken, onProgress)`: a small file
gets `onProgress(0)` then `onProgress(100)` around its single PUT; a large
file gets an initial `onProgress(0)` and then one event per chunk. -/
def uploadFileEvents (size : Nat) : List Nat :=
  if size < maxChunkSize then [0, 100]
  else 0 :: largeUploadEventsAux size 0

theorem largeUploadEventsAux_eq_nil_iff (fileSize u : Nat) :
    largeUploadEventsAux fileSize u = [] ↔ fileSize ≤ u := by
  rw [largeUploadEventsAux]
  split
  · simp; omega
  · simp; omega

theorem largeUploadEventsAux_cons (fileSize u : Nat) (h : u < fileSize) :
    largeUploadEventsAux fileSize u =
      jsRound100 (u + min maxChunkSize (fileSize - u)) fileSize ::
        largeUploadEventsAux fileSize (u + min maxChunkSize (fileSize - u)) := by
  rw [largeUploadEventsAux]
  simp only [dif_pos h]

theorem jsRound100_mono (s : Nat) {u v : Nat} (h : u ≤ v) :
    jsRound100 u s ≤ jsRound100 v s := by
  unfold jsRound100
  exact Nat.div_le_div_right (by omega)

theorem jsRound100_self (s : Nat) (hs : 0 < s) : jsRound100 s s = 100 := by
  unfold jsRound100
  refine Nat.div_eq_of_lt_le (by omega) (by omega)

theorem jsRound100_zero (s : Nat) : jsRound100 0 s = 0 := by
  unfold jsRound100
  rcases Nat.eq_zero_or_pos s with hs | hs
  · subst hs
    rfl
  · exact Nat.div_eq_of_lt (by omega)

theorem largeUploadEventsAux_chain (fileSize u : Nat) :
    List.Chain (· ≤ ·) (jsRound100 u fileSize) (largeUploadEventsAux fileSize u) := by
  refine largeUploadEventsAux.induct fileSize
    (fun v => List.Chain (· ≤ ·) (jsRound100 v fileSize)
      (largeUploadEventsAux fileSize v)) ?_ ?_ u
  · intro v h ih
    rw [largeUploadEventsAux_cons fileSize v h]
    exact List.Chain.cons (jsRound100_mono fileSize (by omega)) ih
  · intro v h
    rw [largeUploadEventsAux]
    simp only [dif_neg h]
    exact List.Chain.nil

theorem largeUploadEventsAux_getLast? (fileSize u : Nat) (h : u < fileSize) :
    (largeUploadEventsAux fileSize u).getLast? = some 100 := by
  refine largeUploadEventsAux.induct fileSize
    (fun v => v < fileSize → (largeUploadEventsAux fileSize v).getLast? = some 100)
    ?_ ?_ u h
  · intro v hv ih _
    rw [largeUploadEventsAux_cons fileSize v hv]
    by_cases hrest : largeUploadEventsAux fileSize
        (v + min maxChunkSize (fileSize - v)) = []
    · rw [hrest]
      rw [largeUploadEventsAux_eq_nil_iff] at hrest
      have hle : v + min maxChunkSize (fileSize - v) ≤ fileSize := by omega
      have heq : v + min maxChunkSize (fileSize - v) = fileSize := by omega
      rw [heq, jsRound100_self fileSize (by omega)]
      rfl
    · obtain ⟨b, t, hbt⟩ := List.exists_cons_of_ne_nil hrest
      have hlt : v + min maxChunkSize (fileSize - v) < fileSize := by
        by_contra hge
        push_neg at hge
        exact hrest ((largeUploadEventsAux_eq_nil_iff fileSize _).mpr hge)
      rw [hbt, List.getLast?_cons_cons, ← hbt]
      exact ih hlt
  · intro v hv hcon
    omega

/-- C2: with an `onProgress` callback supplied, a file of size `s < 4 MiB`
produces exactly the two progress events 0 then 100, and a file of size
`s ≥ 4 MiB` produces a monotonically non-decreasing sequence of events whose
final value is 100. -/
theorem upload_progress_events (s : Nat) :
    (s < maxChunkSize → uploadFileEvents s = [0, 100]) ∧
    (maxChunkSize ≤ s →
      List.Chain' (· ≤ ·) (uploadFileEvents s) ∧
      (uploadFileEvents s).getLast? = some 100) := by
  constructor
  · intro h
    unfold uploadFileEvents
    rw [if_pos h]
  · intro h
    have hnot : ¬ s < maxChunkSize := Nat.not_lt.mpr h
    have hs0 : 0 < s := lt_of_lt_of_le (by decide) h
    unfold uploadFileEvents
    rw [if_neg hnot]
    constructor
    · show List.Chain (· ≤ ·) 0 (largeUploadEventsAux s 0)
      have hch := largeUploadEventsAux_chain s 0
      rwa [jsRound100_zero] at hch
    · have hne : largeUploadEventsAux s 0 ≠ [] := by
        intro hnil
        rw [largeUploadEventsAux_eq_nil_iff] at hnil
        omega
      obtain ⟨b, t, hbt⟩ := List.exists_cons_of_ne_nil hne
      rw [hbt, List.getLast?_cons_cons, ← hbt]
      exact largeUploadEventsAux_getLast? s 0 hs0

/-- Witness: a 100-byte file yields events 0, 100; an exactly-4-MiB file
yields a monotone sequence ending in 100. -/
theorem upload_progress_events_witness :
    (100 < maxChunkSize ∧ uploadFileEvents 100 = [0, 100]) ∧
    (maxChunkSize ≤ maxChunkSize ∧
      List.Chain' (· ≤ ·) (uploadFileEvents maxChunkSize) ∧
      (uploadFileEvents maxChunkSize).getLast? = some 100) :=
  ⟨⟨by decide, (upload_progress_events 100).1 (by decide)⟩,
   ⟨le_refl maxChunkSize, (upload_progress_events maxChunkSize).2 (le_refl maxChunkSize)⟩⟩

/-! ### Token Cache: msalService.getAccessToken + sharePointService.ensureValidToken

`ensureValidToken` (part_006) obtains a token through `msalService.getAccessToken()`
(which delegates to the MSAL client-credential flow with `skipCache: forceRefresh`),
decodes its JWT `exp` claim, and forces a refresh (`getAccessToken(true)`) when
`currentTime + fiveMinutes >= expirationTime`.  The token and its decoded expiry
are modelled together as a `Credential`; timestamps are in milliseconds.
-/

structure Credential where
  tok : Nat
  expiresAt : Int
deriving DecidableEq

/-- Modelled from the spec: the identity provider client
`acquireToken(scopes, skipCache) -> {accessToken, expiresAt}` (the MSAL
library's client-credential exchange, external to the repository).  With
`skipCache = false` and a cached credential it serves the cache; otherwise it
acquires a fresh credential and replaces the cache.  The returned flag records
whether a fresh acquisition happened. -/
def acquireToken (cache : Option Credential) (skipCache : Bool)
    (fresh : Credential) : Credential × Option Credential × Bool :=
  match cache, skipCache with
  | some c, false => (c, some c, false)
  | some _, true => (fresh, some fresh, true)
  | none, _ => (fresh, some fresh, true)

def fiveMinutesMs : Int := 5 * 60 * 1000

/-- `ensureValidToken` (part_006 lines 17-38): get a token from the MSAL cache;
if `currentTime + fiveMinutes >= expirationTime`, force-refresh with
`getAccessToken(true)` (skipCache).  Returns the credential handed to the
caller, the resulting MSAL cache, and how many fresh acquisitions occurred. -/
def ensureValidToken (cache : Option Credential) (now : Int)
    (fresh : Credential) : Credential × Option Credential × Nat :=
  let r1 := acquireToken cache false fresh
  if r1.1.expiresAt ≤ now + fiveMinutesMs then
    let r2 := acquireToken r1.2.1 true fresh
    (r2.1, r2.2.1, (if r1.2.2 then 1 else 0) + 1)
  else
    (r1.1, r1.2.1, if r1.2.2 then 1 else 0)

/-- C3: `ensureValidToken` returns the cached credential untouched, with no
identity-provider call, exactly when the current time is more than 5 minutes
before its expiry; a missing cache or a near-expiry cache forces a fresh
acquisition; and a credential within 5 minutes of expiry is never handed back
unless a fresh acquisition occurred during the call. -/
theorem token_cache_refresh (cache : Option Credential) (now : Int)
    (fresh : Credential) :
    (∀ c, cache = some c → now + fiveMinutesMs < c.expiresAt →
      ensureValidToken cache now fresh = (c, some c, 0)) ∧
    (cache = none →
      (ensureValidToken cache now fresh).1 = fresh ∧
      1 ≤ (ensureValidToken cache now fresh).2.2) ∧
    (∀ c, cache = some c → c.expiresAt ≤ now + fiveMinutesMs →
      ensureValidToken cache now fresh = (fresh, some fresh, 1)) ∧
    ((ensureValidToken cache now fresh).1.expiresAt ≤ now + fiveMinutesMs →
      1 ≤ (ensureValidToken cache now fresh).2.2) := by
  refine ⟨?_, ?_, ?_, ?_⟩
  · intro c hc hlt
    subst hc
    unfold ensureValidToken acquireToken
    simp only
    rw [if_neg (by omega)]
    rfl
  · intro hc
    subst hc
    unfold ensureValidToken acquireToken
    simp only
    by_cases hf : fresh.expiresAt ≤ now + fiveMinutesMs
    · rw [if_pos hf]
      exact ⟨rfl, by simp⟩
    · rw [if_neg hf]
      exact ⟨rfl, by simp⟩
  · intro c hc hle
    subst hc
    unfold ensureValidToken acquireToken
    simp only
    rw [if_pos (by omega)]
    rfl
  · intro hexp
    unfold ensureValidToken acquireToken at hexp ⊢
    rcases cache with _ | c
    · simp only at hexp ⊢
      by_cases hf : fresh.expiresAt ≤ now + fiveMinutesMs
      · rw [if_pos hf]
        simp
      · rw [if_neg hf]
        simp
    · simp only at hexp ⊢
      by_cases hc2 : c.expiresAt ≤ now + fiveMinutesMs
      · rw [if_pos hc2]
        simp
      · rw [if_neg hc2] at hexp ⊢
        simp only [Prod.fst] at hexp
        exact absurd hexp hc2

/-- Witness for C3 at concrete inputs: a fresh-enough cached credential is
returned unchanged; an empty cache and a near-expiry cache force acquisition;
the returned credential is never silently near expiry. -/
theorem token_cache_refresh_witness :
    ((some ⟨5, 1000000⟩ : Option Credential) = some ⟨5, 1000000⟩ ∧
      (0 : Int) + fiveMinutesMs < (1000000 : Int) ∧
      ensureValidToken (some ⟨5, 1000000⟩) 0 ⟨9, 2000000⟩ = (⟨5, 1000000⟩, some ⟨5, 1000000⟩, 0)) ∧
    ((ensureValidToken none 0 ⟨9, 2000000⟩).1 = ⟨9, 2000000⟩ ∧
      1 ≤ (ensureValidToken none 0 ⟨9, 2000000⟩).2.2) ∧
    ((100000 : Int) ≤ 0 + fiveMinutesMs ∧
      ensureValidToken (some ⟨5, 100000⟩) 0 ⟨9, 2000000⟩ = (⟨9, 2000000⟩, some ⟨9, 2000000⟩, 1)) := by
  refine ⟨⟨rfl, by decide, ?_⟩, ?_, ⟨by decide, ?_⟩⟩
  · exact (token_cache_refresh (some ⟨5, 1000000⟩) 0 ⟨9, 2000000⟩).1 ⟨5, 1000000⟩ rfl (by decide)
  · exact (token_cache_refresh none 0 ⟨9, 2000000⟩).2.1 rfl
  · exact (token_cache_refresh (some ⟨5, 100000⟩) 0 ⟨9, 2000000⟩).2.2.1 ⟨5, 100000⟩ rfl (by decide)

/-! ### Download-URL Cache: redisService + sharePointService.getFileUrls

The redis key `file:{fileId}:urls` for one object id is modelled as an
optional entry paired with the absolute instant at which the `setex` TTL
evicts the key.  `getFileUrls` takes the outcomes of its external effects as
oracle arguments: `fetch` is the result of the synchronous minting step
(`getSiteAndDriveInfo` plus the parallel `getDownloadUrl` calls, counted as
one remote fetch round), and `stCatch`/`nowCatch` are the cache state and
time seen by the catch-handler's re-read (equal to `st`/`now` unless a
concurrent writer modified the cache while the failed fetch was in flight).
-/

structure UrlEntry where
  fileUrl : Nat
  thumbnailUrl : Option Nat
  generatedAt : Int
  expiresAt : Int
  isRefreshing : Bool
deriving DecidableEq

structure CacheState where
  entry : Option (UrlEntry × Int)
deriving DecidableEq

/-- `Math.ceil(a / b)` for `b > 0`, via Euclidean division. -/
def jsCeilDiv (a b : Int) : Int := -((-a).ediv b)

/-- `redisService.getFileUrls`: `get` returns the stored entry, or null once
the `setex` TTL has elapsed. -/
def redisGetFileUrls (st : CacheState) (now : Int) : Option UrlEntry :=
  match st.entry with
  | none => none
  | some (e, evictAt) => if now < evictAt then some e else none

/-- `redisService.storeFileUrls` with the default `expiresIn = 3600` seconds
(every call site uses the default): stores the URLs with
`generatedAt = Date.now()`, `expiresAt = Date.now() + expiresIn * 1000`,
`isRefreshing = false`, under a `setex` TTL of `expiresIn` seconds. -/
def storeFileUrls (now : Int) (fileUrl : Nat) (thumbnailUrl : Option Nat) :
    CacheState :=
  { entry := some
      ({ fileUrl := fileUrl, thumbnailUrl := thumbnailUrl, generatedAt := now,
         expiresAt := now + 3600 * 1000, isRefreshing := false },
       now + 3600 * 1000) }

/-- `redisService.markUrlAsRefreshing`: re-read the entry; if absent return
false, else rewrite it with `isRefreshing = true` under a `setex` TTL of
`Math.ceil((expiresAt - Date.now()) / 1000)` seconds. -/
def markUrlAsRefreshing (st : CacheState) (now : Int) : Bool × CacheState :=
  match redisGetFileUrls st now with
  | none => (false, st)
  | some e =>
      (true, { entry := some ({ e with isRefreshing := true },
        now + 1000 * jsCeilDiv (e.expiresAt - now) 1000) })

/-- `redisService.needsRefresh`: true on a missing entry; otherwise
`age > lifetime * 0.8 && !isRefreshing`, embedded exactly as
`5 * age > 4 * lifetime` (for the integer millisecond values involved the
float comparison agrees with this exact rational one). -/
def needsRefresh (st : CacheState) (now : Int) : Bool :=
  match redisGetFileUrls st now with
  | none => true
  | some e =>
      decide (5 * (now - e.generatedAt) > 4 * (e.expiresAt - e.generatedAt))
        && !e.isRefreshing

/-- Oracle for the synchronous URL-minting step: either the minted file and
thumbnail URLs (the latter null when no thumbnailId was passed), or a fetch
error thrown by site/drive resolution or `getDownloadUrl`. -/
inductive FetchOutcome
  | ok (fileUrl : Nat) (thumbnailUrl : Option Nat)
  | fail
deriving DecidableEq

inductive UrlsResult
  | ok (fileUrl : Nat) (thumbnailUrl : Option Nat)
  | error
deriving DecidableEq

structure GetUrlsOutcome where
  result : UrlsResult
  state : CacheState
  syncFetches : Nat
  bgStarted : Bool
deriving DecidableEq

/-- `sharePointService.getFileUrls` (part_006 lines 327-381): serve fresh
cached URLs directly; serve stale-but-present URLs while firing
`refreshUrlsInBackground` (not awaited); on a miss, mint synchronously and
store; on a fetch error, fall back to whatever the catch-handler re-read
finds, else rethrow. -/
def getFileUrls (st : CacheState) (now : Int) (fetch : FetchOutcome)
    (stCatch : CacheState) (nowCatch : Int) : GetUrlsOutcome :=
  match redisGetFileUrls st now with
  | some cached =>
      if needsRefresh st now then
        { result := .ok cached.fileUrl cached.thumbnailUrl, state := st,
          syncFetches := 0, bgStarted := true }
      else
        { result := .ok cached.fileUrl cached.thumbnailUrl, state := st,
          syncFetches := 0, bgStarted := false }
  | none =>
      match fetch with
      | .ok f t =>
          { result := .ok f t, state := storeFileUrls now f t,
            syncFetches := 1, bgStarted := false }
      | .fail =>
          match redisGetFileUrls stCatch nowCatch with
          | some cached =>
              { result := .ok cached.fileUrl cached.thumbnailUrl,
                state := stCatch, syncFetches := 1, bgStarted := false }
          | none =>
              { result := .error, state := stCatch, syncFetches := 1,
                bgStarted := false }

/-- `sharePointService.refreshUrlsInBackground`: mark the entry as refreshing
(abort if it vanished), fetch fresh URLs, overwrite the entry; a fetch error
is only logged.  Returns the resulting cache state and the number of remote
fetch rounds performed. -/
def refreshUrlsInBackground (st : CacheState) (now : Int)
    (fetch : FetchOutcome) : CacheState × Nat :=
  match markUrlAsRefreshing st now with
  | (false, st1) => (st1, 0)
  | (true, st1) =>
      match fetch with
      | .ok f t => (storeFileUrls now f t, 1)
      | .fail => (st1, 1)

theorem getFileUrls_cached_of_fresh (st : CacheState) (now : Int)
    (fetch : FetchOutcome) (stC : CacheState) (nowC : Int) (e : UrlEntry)
    (hget : redisGetFileUrls st now = some e)
    (hnr : needsRefresh st now = false) :
    getFileUrls st now fetch stC nowC =
      { result := .ok e.fileUrl e.thumbnailUrl, state := st,
        syncFetches := 0, bgStarted := false } := by
  unfold getFileUrls
  rw [hget, hnr]
  rfl

theorem getFileUrls_cached_of_stale (st : CacheState) (now : Int)
    (fetch : FetchOutcome) (stC : CacheState) (nowC : Int) (e : UrlEntry)
    (hget : redisGetFileUrls st now = some e)
    (hnr : needsRefresh st now = true) :
    getFileUrls st now fetch stC nowC =
      { result := .ok e.fileUrl e.thumbnailUrl, state := st,
        syncFetches := 0, bgStarted := true } := by
  unfold getFileUrls
  rw [hget, hnr]
  rfl

theorem getFileUrls_miss_ok (st : CacheState) (now : Int) (f : Nat)
    (t : Option Nat) (stC : CacheState) (nowC : Int)
    (hget : redisGetFileUrls st now = none) :
    getFileUrls st now (.ok f t) stC nowC =
      { result := .ok f t, state := storeFileUrls now f t,
        syncFetches := 1, bgStarted := false } := by
  unfold getFileUrls
  rw [hget]

theorem redisGet_store (now1 now2 : Int) (f : Nat) (t : Option Nat)
    (h : now2 < now1 + 3600 * 1000) :
    redisGetFileUrls (storeFileUrls now1 f t) now2 =
      some { fileUrl := f, thumbnailUrl := t, generatedAt := now1,
             expiresAt := now1 + 3600 * 1000, isRefreshing := false } := by
  unfold redisGetFileUrls storeFileUrls
  simp only
  rw [if_pos h]

theorem needsRefresh_store_false (now1 now2 : Int) (f : Nat) (t : Option Nat)
    (h2 : now2 < now1 + 3600 * 1000)
    (hfresh : 5 * (now2 - now1) ≤ 4 * (3600 * 1000)) :
    needsRefresh (storeFileUrls now1 f t) now2 = false := by
  unfold needsRefresh
  rw [redisGet_store now1 now2 f t h2]
  have hq : ¬(5 * (now2 - now1) > 4 * ((now1 + 3600 * 1000) - now1)) := by omega
  simp [hq]
  omega

/-- C4: starting cold, a first `getUrls` call at `now1` mints and stores the
URLs (one remote fetch); a second call at `now2` within the freshness window
(less than 80% of the 3600 s TTL elapsed since `generatedAt = now1`) returns
the cached URLs with no network call, no background refresh and no cache
mutation — one remote fetch in total. -/
theorem url_cache_single_fetch (now1 now2 : Int) (f : Nat) (t : Option Nat)
    (fetch2 : FetchOutcome) (stC2 : CacheState) (nowC2 : Int)
    (h12 : now1 ≤ now2)
    (hwin : 5 * (now2 - now1) < 4 * (3600 * 1000)) :
    getFileUrls { entry := none } now1 (.ok f t) { entry := none } now1 =
      { result := .ok f t, state := storeFileUrls now1 f t,
        syncFetches := 1, bgStarted := false } ∧
    getFileUrls (storeFileUrls now1 f t) now2 fetch2 stC2 nowC2 =
      { result := .ok f t, state := storeFileUrls now1 f t,
        syncFetches := 0, bgStarted := false } := by
  constructor
  · exact getFileUrls_miss_ok { entry := none } now1 f t { entry := none } now1 rfl
  · have h2 : now2 < now1 + 3600 * 1000 := by omega
    have hg := redisGet_store now1 now2 f t h2
    have hnr := needsRefresh_store_false now1 now2 f t h2 (by omega)
    exact getFileUrls_cached_of_fresh (storeFileUrls now1 f t) now2 fetch2
      stC2 nowC2 _ hg hnr

/-- Witness for C4: store at t=0, re-read at t=1000 (well within 80% of TTL);
even a failing oracle on the second call is never consulted. -/
theorem url_cache_single_fetch_witness :
    ((0 : Int) ≤ 1000 ∧ 5 * ((1000 : Int) - 0) < 4 * (3600 * 1000)) ∧
    getFileUrls { entry := none } 0 (.ok 7 (some 8)) { entry := none } 0 =
      { result := .ok 7 (some 8), state := storeFileUrls 0 7 (some 8),
        syncFetches := 1, bgStarted := false } ∧
    getFileUrls (storeFileUrls 0 7 (some 8)) 1000 .fail { entry := none } 1000 =
      { result := .ok 7 (some 8), state := storeFileUrls 0 7 (some 8),
        syncFetches := 0, bgStarted := false } :=
  ⟨⟨by decide, by decide⟩,
    (url_cache_single_fetch 0 1000 7 (some 8) .fail { entry := none } 1000
      (by decide) (by decide)).1,
    (url_cache_single_fetch 0 1000 7 (some 8) .fail { entry := none } 1000
      (by decide) (by decide)).2⟩

/-- C5 (amended: the refresh threshold is strict, `age > 0.8 * lifetime`, so
"at or past 80%" becomes "strictly past 80%"): when the cached entry is
strictly past 80% of its TTL but before expiry and not already isRefreshing,
`getUrls` returns the still-valid cached URLs immediately with no synchronous
fetch and fires the background refresh; the background task marks the entry
`isRefreshing = true` and performs exactly one fetch, which overwrites the
entry with the fresh URLs and a full new `generatedAt`/`expiresAt` window. -/
theorem url_cache_background_refresh (e : UrlEntry) (now nowBg : Int)
    (fetch : FetchOutcome) (stC : CacheState) (nowC : Int)
    (f2 : Nat) (t2 : Option Nat)
    (href : e.isRefreshing = false)
    (hstale : 4 * (e.expiresAt - e.generatedAt) < 5 * (now - e.generatedAt))
    (hexp : now < e.expiresAt)
    (hbg1 : now ≤ nowBg) (hbg2 : nowBg < e.expiresAt) :
    getFileUrls ⟨some (e, e.expiresAt)⟩ now fetch stC nowC =
      { result := .ok e.fileUrl e.thumbnailUrl,
        state := ⟨some (e, e.expiresAt)⟩,
        syncFetches := 0, bgStarted := true } ∧
    markUrlAsRefreshing ⟨some (e, e.expiresAt)⟩ nowBg =
      (true, ⟨some ({ e with isRefreshing := true },
        nowBg + 1000 * jsCeilDiv (e.expiresAt - nowBg) 1000)⟩) ∧
    refreshUrlsInBackground ⟨some (e, e.expiresAt)⟩ nowBg (.ok f2 t2) =
      (storeFileUrls nowBg f2 t2, 1) ∧
    (storeFileUrls nowBg f2 t2).entry =
      some ({ fileUrl := f2, thumbnailUrl := t2, generatedAt := nowBg,
              expiresAt := nowBg + 3600 * 1000, isRefreshing := false },
            nowBg + 3600 * 1000) := by
  have hgetNow : redisGetFileUrls ⟨some (e, e.expiresAt)⟩ now = some e := by
    unfold redisGetFileUrls
    simp only
    rw [if_pos hexp]
  have hgetBg : redisGetFileUrls ⟨some (e, e.expiresAt)⟩ nowBg = some e := by
    unfold redisGetFileUrls
    simp only
    rw [if_pos hbg2]
  have hnr : needsRefresh ⟨some (e, e.expiresAt)⟩ now = true := by
    unfold needsRefresh
    rw [hgetNow]
    simp [href]
    omega
  have hmark : markUrlAsRefreshing ⟨some (e, e.expiresAt)⟩ nowBg =
      (true, ⟨some ({ e with isRefreshing := true },
        nowBg + 1000 * jsCeilDiv (e.expiresAt - nowBg) 1000)⟩) := by
    unfold markUrlAsRefreshing
    rw [hgetBg]
  refine ⟨?_, hmark, ?_, rfl⟩
  · exact getFileUrls_cached_of_stale ⟨some (e, e.expiresAt)⟩ now fetch
      stC nowC e hgetNow hnr
  · unfold refreshUrlsInBackground
    rw [hmark]

/-- A sample cache entry written at t = 0 with the default 3600 s TTL, used
below to exercise the 80% refresh threshold. -/
def sampleEntry : UrlEntry :=
  { fileUrl := 1, thumbnailUrl := none, generatedAt := 0,
    expiresAt := 3600000, isRefreshing := false }

/-- Witness for C5 (amended): entry generated at 0 with TTL 3600 s, queried at
2880001 ms (just past 80%), background task running at 2880002 ms. -/
theorem url_cache_background_refresh_witness :
    (sampleEntry.isRefreshing = false ∧
     4 * (sampleEntry.expiresAt - sampleEntry.generatedAt) <
       5 * ((2880001 : Int) - sampleEntry.generatedAt) ∧
     (2880001 : Int) < sampleEntry.expiresAt ∧
     (2880001 : Int) ≤ 2880002 ∧
     (2880002 : Int) < sampleEntry.expiresAt) ∧
    getFileUrls ⟨some (sampleEntry, sampleEntry.expiresAt)⟩ 2880001
        (.ok 2 (some 3)) ⟨none⟩ 2880001 =
      { result := .ok sampleEntry.fileUrl sampleEntry.thumbnailUrl,
        state := ⟨some (sampleEntry, sampleEntry.expiresAt)⟩,
        syncFetches := 0, bgStarted := true } ∧
    refreshUrlsInBackground ⟨some (sampleEntry, sampleEntry.expiresAt)⟩
        2880002 (.ok 2 (some 3)) =
      (storeFileUrls 2880002 2 (some 3), 1) :=
  ⟨⟨rfl, by decide, by decide, by decide, by decide⟩,
    (url_cache_background_refresh sampleEntry
      2880001 2880002 (.ok 2 (some 3)) ⟨none⟩ 2880001 2 (some 3)
      rfl (by decide) (by decide) (by decide) (by decide)).1,
    (url_cache_background_refresh sampleEntry
      2880001 2880002 (.ok 2 (some 3)) ⟨none⟩ 2880001 2 (some 3)
      rfl (by decide) (by decide) (by decide) (by decide)).2.2.1⟩

/-- C5 counterexample: at exactly 80% of the TTL (entry generated at 0 with
expiresAt 3600000, call at 2880000) the `age > lifetime * 0.8` test is false,
so `getUrls` serves the cache with NO background refresh and the entry stays
unmarked — against the claim's "at or past 80%". -/
theorem url_cache_background_refresh_at_exactly_80 :
    5 * ((2880000 : Int) - sampleEntry.generatedAt) =
      4 * (sampleEntry.expiresAt - sampleEntry.generatedAt) ∧
    sampleEntry.isRefreshing = false ∧
    (2880000 : Int) < sampleEntry.expiresAt ∧
    getFileUrls ⟨some (sampleEntry, sampleEntry.expiresAt)⟩ 2880000
        (.ok 2 none) ⟨none⟩ 2880000 =
      { result := .ok 1 none,
        state := ⟨some (sampleEntry, sampleEntry.expiresAt)⟩,
        syncFetches := 0, bgStarted := false } := by
  refine ⟨by decide, rfl, by decide, ?_⟩
  decide

/-- C7: when the synchronous minting step fails (reachable only on a cache
miss), `getUrls` falls back to whatever cached entry the catch-handler re-read
finds and returns its URLs; only when no cached entry exists does the error
propagate to the caller. -/
theorem url_cache_error_fallback (st : CacheState) (now : Int)
    (stC : CacheState) (nowC : Int)
    (hmiss : redisGetFileUrls st now = none) :
    (∀ c, redisGetFileUrls stC nowC = some c →
      getFileUrls st now .fail stC nowC =
        { result := .ok c.fileUrl c.thumbnailUrl, state := stC,
          syncFetches := 1, bgStarted := false }) ∧
    (redisGetFileUrls stC nowC = none →
      getFileUrls st now .fail stC nowC =
        { result := .error, state := stC, syncFetches := 1,
          bgStarted := false }) := by
  constructor
  · intro c hc
    unfold getFileUrls
    rw [hmiss, hc]
  · intro hc
    unfold getFileUrls
    rw [hmiss, hc]

/-- Witness for C7: a failing fetch with a concurrently-written cache entry is
served from that entry; with an empty cache the error propagates. -/
theorem url_cache_error_fallback_witness :
    (redisGetFileUrls { entry := none } 0 = none ∧
      redisGetFileUrls (storeFileUrls 0 3 (some 4)) 10 =
        some { fileUrl := 3, thumbnailUrl := some 4, generatedAt := 0,
               expiresAt := 3600000, isRefreshing := false } ∧
      getFileUrls { entry := none } 0 .fail (storeFileUrls 0 3 (some 4)) 10 =
        { result := .ok 3 (some 4), state := storeFileUrls 0 3 (some 4),
          syncFetches := 1, bgStarted := false }) ∧
    getFileUrls { entry := none } 0 .fail { entry := none } 0 =
      { result := .error, state := { entry := none }, syncFetches := 1,
        bgStarted := false } :=
  ⟨⟨rfl, by decide,
    (url_cache_error_fallback { entry := none } 0
      (storeFileUrls 0 3 (some 4)) 10 rfl).1
      { fileUrl := 3, thumbnailUrl := some 4, generatedAt := 0,
        expiresAt := 3600000, isRefreshing := false } (by decide)⟩,
   (url_cache_error_fallback { entry := none } 0 { entry := none } 0 rfl).2 rfl⟩

/-- C10: every successful write of a URL cache entry (initial mint or
background refresh) stores `isRefreshing = false`, `generatedAt` equal to the
write time and `expiresAt` equal to the write time plus the default 3600 s
TTL; in particular a background refresh that succeeded after marking
overwrites the entry with exactly such a record, clearing the in-flight
marker and opening a fresh TTL window. -/
theorem url_cache_store_invariant (now : Int) (f : Nat) (t : Option Nat) :
    (storeFileUrls now f t).entry =
      some ({ fileUrl := f, thumbnailUrl := t, generatedAt := now,
              expiresAt := now + 3600 * 1000, isRefreshing := false },
            now + 3600 * 1000) ∧
    (∀ (st : CacheState) (nowBg : Int),
      (markUrlAsRefreshing st nowBg).1 = true →
      refreshUrlsInBackground st nowBg (.ok f t) =
        (storeFileUrls nowBg f t, 1)) := by
  constructor
  · rfl
  · intro st nowBg hmark
    unfold refreshUrlsInBackground
    rcases hm : markUrlAsRefreshing st nowBg with ⟨b, st1⟩
    rw [hm] at hmark
    simp only at hmark
    subst hmark
    rfl

/-- Witness for C10: the marked entry written at t=0 is refreshed at t=500. -/
theorem url_cache_store_invariant_witness :
    (markUrlAsRefreshing (storeFileUrls 0 1 none) 500).1 = true ∧
    refreshUrlsInBackground (storeFileUrls 0 1 none) 500 (.ok 1 none) =
      (storeFileUrls 500 1 none, 1) :=
  ⟨by decide,
   (url_cache_store_invariant 500 1 none).2 (storeFileUrls 0 1 none) 500
     (by decide)⟩

/-! ### Progress Notification Channel: src/utils/websocket.js

`uploadConnections` is a Map from uploadId to a WebSocket; an event is pushed
only when the connection exists and `ws.readyState === 1` (OPEN).  The
serialized `{type, ...payload}` JSON objects are modelled by the tagged
`WsEvent` values. -/

structure Conn where
  readyState : Nat
deriving DecidableEq

def Registry := Nat → Option Conn

inductive WsEvent
  | progress (percent : Nat)
  | complete (payload : Nat)
  | error (message : Nat)
deriving DecidableEq

/-- `uploadConnections.delete(uploadId)`. -/
def removeUploadConnection (reg : Registry) (uploadId : Nat) : Registry :=
  fun k => if k = uploadId then none else reg k

/-- `sendUploadProgress`: push `{type: 'progress', progress}` if the
connection is open, else silently drop; the mapping is never removed. -/
def sendUploadProgress (reg : Registry) (uploadId percent : Nat) :
    Option WsEvent × Registry :=
  match reg uploadId with
  | some ws => if ws.readyState = 1 then (some (.progress percent), reg) else (none, reg)
  | none => (none, reg)

/-- `sendUploadComplete`: push `{type: 'complete', data}` if open and then
`removeUploadConnection(uploadId)`; else silently drop, keeping the mapping. -/
def sendUploadComplete (reg : Registry) (uploadId payload : Nat) :
    Option WsEvent × Registry :=
  match reg uploadId with
  | some ws =>
      if ws.readyState = 1 then
        (some (.complete payload), removeUploadConnection reg uploadId)
      else (none, reg)
  | none => (none, reg)

/-- `sendUploadError`: push `{type: 'error', error}` if open and then
`removeUploadConnection(uploadId)`; else silently drop, keeping the mapping. -/
def sendUploadError (reg : Registry) (uploadId message : Nat) :
    Option WsEvent × Registry :=
  match reg uploadId with
  | some ws =>
      if ws.readyState = 1 then
        (some (.error message), removeUploadConnection reg uploadId)
      else (none, reg)
  | none => (none, reg)

/-- True when a registered open connection exists for the uploadId. -/
def connOpen (reg : Registry) (uploadId : Nat) : Prop :=
  ∃ ws, reg uploadId = some ws ∧ ws.readyState = 1

instance (reg : Registry) (uploadId : Nat) : Decidable (connOpen reg uploadId) := by
  unfold connOpen
  rcases reg uploadId with _ | ws
  · exact isFalse (by rintro ⟨w, hw, _⟩; cases hw)
  · rcases Nat.decEq ws.readyState 1 with h | h
    · exact isFalse (by rintro ⟨w, hw, hr⟩; cases hw; exact h hr)
    · exact isTrue ⟨ws, rfl, h⟩

/-- C8: each send pushes its typed serialized event exactly when a registered
open connection exists, and otherwise silently drops it leaving the registry
untouched; `sendComplete` and `sendError` deregister the uploadId after a
successful send (other ids untouched) while `sendProgress` always leaves the
registry unchanged. -/
theorem notification_channel_send (reg : Registry) (uploadId percent payload message : Nat) :
    (connOpen reg uploadId →
      (sendUploadProgress reg uploadId percent).1 = some (.progress percent) ∧
      (sendUploadProgress reg uploadId percent).2 = reg ∧
      (sendUploadComplete reg uploadId payload).1 = some (.complete payload) ∧
      (sendUploadComplete reg uploadId payload).2 uploadId = none ∧
      (∀ k, k ≠ uploadId → (sendUploadComplete reg uploadId payload).2 k = reg k) ∧
      (sendUploadError reg uploadId message).1 = some (.error message) ∧
      (sendUploadError reg uploadId message).2 uploadId = none ∧
      (∀ k, k ≠ uploadId → (sendUploadError reg uploadId message).2 k = reg k)) ∧
    (¬ connOpen reg uploadId →
      sendUploadProgress reg uploadId percent = (none, reg) ∧
      sendUploadComplete reg uploadId payload = (none, reg) ∧
      sendUploadError reg uploadId message = (none, reg)) := by
  constructor
  · rintro ⟨ws, hws, hopen⟩
    unfold sendUploadProgress sendUploadComplete sendUploadError
    simp only [hws]
    rw [hopen]
    refine ⟨rfl, rfl, rfl, ?_, ?_, rfl, ?_, ?_⟩
    · unfold removeUploadConnection
      simp
    · intro k hk
      unfold removeUploadConnection
      simp [hk]
    · unfold removeUploadConnection
      simp
    · intro k hk
      unfold removeUploadConnection
      simp [hk]
  · intro hclosed
    unfold sendUploadProgress sendUploadComplete sendUploadError
    rcases hws : reg uploadId with _ | ws
    · simp only [hws]
      exact ⟨trivial, trivial, trivial⟩
    · have hnot : ¬ ws.readyState = 1 := fun h1 => hclosed ⟨ws, hws, h1⟩
      simp only [hws, if_neg hnot]
      exact ⟨trivial, trivial, trivial⟩

/-- Witness for C8: a registry holding an open connection for id 7 delivers
and deregisters; an absent id drops silently. -/
theorem notification_channel_send_witness :
    (connOpen (fun k => if k = 7 then some ⟨1⟩ else none) 7 ∧
      (sendUploadComplete (fun k => if k = 7 then some ⟨1⟩ else none) 7 42).1 =
        some (.complete 42) ∧
      (sendUploadComplete (fun k => if k = 7 then some ⟨1⟩ else none) 7 42).2 7 =
        none) ∧
    (¬ connOpen (fun k => if k = 7 then some ⟨1⟩ else none) 8 ∧
      sendUploadError (fun k => if k = 7 then some ⟨1⟩ else none) 8 5 =
        (none, fun k => if k = 7 then some ⟨1⟩ else none)) := by
  have hopen : connOpen (fun k => if k = 7 then some ⟨1⟩ else none) 7 :=
    ⟨⟨1⟩, rfl, rfl⟩
  have hclosed : ¬ connOpen (fun k => if k = 7 then some ⟨1⟩ else none) 8 := by
    rintro ⟨w, hw, _⟩
    simp at hw
  have h := notification_channel_send (fun k => if k = 7 then some ⟨1⟩ else none) 7 0 42 5
  have h8 := notification_channel_send (fun k => if k = 7 then some ⟨1⟩ else none) 8 0 42 5
  exact ⟨⟨hopen, (h.1 hopen).2.2.1, (h.1 hopen).2.2.2.1⟩,
         ⟨hclosed, (h8.2 hclosed).2.2⟩⟩

/-! ### Upload request boundary: fileController.uploadFile validation

The controller's only file validation is `if (!mainFile) return 400`; the
engine's own guard is `if (!file || !file.buffer) throw`.  A multer
memory-storage file always carries a Buffer — an empty (zero-length) Buffer
is still truthy in JavaScript. -/

structure MulterFile where
  size : Nat
  bufferLen : Option Nat
deriving DecidableEq

/-- `fileController.uploadFile`: reject with 400 exactly when no main file is
present in the request. -/
def controllerAccepts (mainFile : Option MulterFile) : Bool :=
  mainFile.isSome

/-- The engine guard in `uploadFile`: `if (!file || !file.buffer) throw new
Error('Invalid file data')`; a present Buffer object is truthy regardless of
its length. -/
def engineAccepts (file : Option MulterFile) : Bool :=
  match file with
  | none => false
  | some f => f.bufferLen.isSome

/-- C9 counterexample: a zero-length file (size 0, present empty buffer)
passes the controller's only validation, passes the engine's
`!file || !file.buffer` guard, and is processed on the small-file path — the
engine does receive a file of size 0, against the claimed rejection. -/
theorem zero_length_reaches_engine :
    controllerAccepts (some { size := 0, bufferLen := some 0 }) = true ∧
    engineAccepts (some { size := 0, bufferLen := some 0 }) = true ∧
    uploadPathFor 0 = UploadPath.simple := by
  decide

/-- C9 (amended): the controller rejects exactly the requests with no main
file; any present file — zero-length included — passes validation and reaches
the engine, which accepts it whenever its buffer is present and routes size 0
to the small-file single-PUT path (0 < 4 MiB). -/
theorem upload_validation (f : MulterFile) :
    controllerAccepts none = false ∧
    controllerAccepts (some f) = true ∧
    (f.bufferLen.isSome → engineAccepts (some f) = true) ∧
    (f.size = 0 → uploadPathFor f.size = UploadPath.simple) := by
  refine ⟨rfl, rfl, ?_, ?_⟩
  · intro h
    unfold engineAccepts
    exact h
  · intro h
    rw [h]
    decide

/-- Witness for C9 (amended) at the zero-length file. -/
theorem upload_validation_witness :
    (({ size := 0, bufferLen := some 0 } : MulterFile).bufferLen.isSome ∧
      engineAccepts (some { size := 0, bufferLen := some 0 }) = true) ∧
    (({ size := 0, bufferLen := some 0 } : MulterFile).size = 0 ∧
      uploadPathFor ({ size := 0, bufferLen := some 0 } : MulterFile).size =
        UploadPath.simple) :=
  ⟨⟨by decide,
    (upload_validation { size := 0, bufferLen := some 0 }).2.2.1 (by decide)⟩,
   ⟨rfl, (upload_validation { size := 0, bufferLen := some 0 }).2.2.2 rfl⟩⟩

/-! ### Upload Orchestrator: uploadProcessingService.processUpload

`processUpload` is embedded as a function of an environment fixing the
outcome of each external step.  The result records whether a FileRecord was
created, whether deletion of the main/thumbnail temporary buffers was
attempted, and which terminal event (`sendComplete`/`sendError`) was emitted
for the uploadId. -/

structure TempFile where
  size : Nat
  hasBuffer : Bool
  hasPath : Bool
  unlinkOk : Bool
deriving DecidableEq

inductive StepResult
  | ok
  | error (msg : String)
deriving DecidableEq

structure ProcEnv where
  mainFile : TempFile
  thumbnail : Option TempFile
  siteInfo : StepResult
  sessionCreate : StepResult
  simplePut : StepResult
  chunkOk : Nat → Bool
  chunkErrMsg : Nat → String
  thumbUpload : StepResult
  dbCreate : StepResult
  urlsStep : StepResult

/-- The chunk loop of `largeFileUpload` under per-chunk PUT outcomes: chunks
are issued strictly in order and the first non-ok PUT aborts the loop with
`new Error(error.message)` carrying the remote error message. -/
def runChunksAux (fileSize : Nat) (chunkOk : Nat → Bool)
    (chunkErrMsg : Nat → String) (u idx : Nat) : StepResult :=
  if h : u < fileSize then
    if chunkOk idx then
      runChunksAux fileSize chunkOk chunkErrMsg
        (u + min maxChunkSize (fileSize - u)) (idx + 1)
    else .error (chunkErrMsg idx)
  else .ok
termination_by fileSize - u
decreasing_by
  have hc : 0 < maxChunkSize := by decide
  omega

/-- Engine outcome for the main file (`uploadFile`, part_007): the
invalid-file guard, then the strict size dispatch into `simpleUpload` or
`largeFileUpload` (session creation followed by the chunk loop). -/
def uploadMainResult (env : ProcEnv) : StepResult :=
  if !env.mainFile.hasBuffer then .error "Invalid file data"
  else if env.mainFile.size < maxChunkSize then env.simplePut
  else
    match env.sessionCreate with
    | .error m => .error m
    | .ok => runChunksAux env.mainFile.size env.chunkOk env.chunkErrMsg 0 0

inductive TermEvent
  | complete
  | error (msg : String)
deriving DecidableEq

structure ProcResult where
  recordCreated : Bool
  mainCleanupAttempted : Bool
  thumbCleanupAttempted : Bool
  terminal : TermEvent
deriving DecidableEq

/-- The catch-block of `processUpload`: `try { if (mainFile?.path) unlink;
if (thumbnail?.path) unlink } catch (e) { log }` — a failing main unlink
throws inside the single try, skipping the thumbnail unlink; the cleanup
failure is only logged — then `sendUploadError(uploadId, error.message)`. -/
def errorCleanup (env : ProcEnv) (msg : String)
    (recordCreated mainPrev thumbPrev : Bool) : ProcResult :=
  let mainAtt := env.mainFile.hasPath
  let thumbAtt := (!env.mainFile.hasPath || env.mainFile.unlinkOk) &&
    (match env.thumbnail with | some t => t.hasPath | none => false)
  { recordCreated := recordCreated,
    mainCleanupAttempted := mainPrev || mainAtt,
    thumbCleanupAttempted := thumbPrev || thumbAtt,
    terminal := .error msg }

/-- Tail of `processUpload` after both uploads: `File.create`, then
`getFileUrls`, then `sendUploadComplete` (note the record exists once
`File.create` succeeded, even if a later step fails). -/
def afterUploads (env : ProcEnv) (mainAtt thumbAtt : Bool) : ProcResult :=
  match env.dbCreate with
  | .error m => errorCleanup env m false mainAtt thumbAtt
  | .ok =>
      match env.urlsStep with
      | .error m => errorCleanup env m true mainAtt thumbAtt
      | .ok =>
          { recordCreated := true, mainCleanupAttempted := mainAtt,
            thumbCleanupAttempted := thumbAtt, terminal := .complete }

/-- `uploadProcessingService.processUpload`: site/drive resolution, main file
upload via the engine with progress wiring, post-upload cleanup of the main
temp file (own try/catch, failure only logged), optional thumbnail upload
with its own cleanup, persistence, URL resolution, terminal event; any thrown
step lands in the catch-block cleanup followed by `sendUploadError`. -/
def processUpload (env : ProcEnv) : ProcResult :=
  match env.siteInfo with
  | .error m => errorCleanup env m false false false
  | .ok =>
      match uploadMainResult env with
      | .error m => errorCleanup env m false false false
      | .ok =>
          match env.thumbnail with
          | some t =>
              match env.thumbUpload with
              | .error m => errorCleanup env m false env.mainFile.hasPath false
              | .ok => afterUploads env env.mainFile.hasPath t.hasPath
          | none => afterUploads env env.mainFile.hasPath false

theorem runChunksAux_first_fail (fileSize : Nat) (chunkOk : Nat → Bool)
    (chunkErrMsg : Nat → String) (j : Nat)
    (hok : ∀ i, i < j → chunkOk i = true)
    (hfail : chunkOk j = false)
    (hreach : maxChunkSize * j < fileSize) :
    ∀ (d idx : Nat), idx + d = j →
      runChunksAux fileSize chunkOk chunkErrMsg (maxChunkSize * idx) idx =
        .error (chunkErrMsg j) := by
  intro d
  induction d with
  | zero =>
      intro idx hidx
      have hj : idx = j := by omega
      subst hj
      rw [runChunksAux]
      rw [dif_pos hreach, hfail]
      rfl
  | succ d ih =>
      intro idx hidx
      have hlt : idx < j := by omega
      have hu : maxChunkSize * idx < fileSize := by
        simp only [maxChunkSize] at *
        omega
      have hmin : min maxChunkSize (fileSize - maxChunkSize * idx) =
          maxChunkSize := by
        simp only [maxChunkSize] at *
        omega
      rw [runChunksAux]
      rw [dif_pos hu, hok idx hlt]
      simp only [if_true]
      rw [hmin]
      have hstep : maxChunkSize * idx + maxChunkSize = maxChunkSize * (idx + 1) := by
        ring
      rw [hstep]
      exact ih (idx + 1) (by omega)

/-- C6: when the main file takes the large path and its chunk `j` PUT is the
first to fail, `processUpload` creates no FileRecord, emits `sendError` for
the uploadId carrying the remote error message, attempts deletion of the main
temp buffer (when it has a path) and of the thumbnail temp buffer (when it
has one and the main unlink did not itself throw), and no unlink outcome ever
alters the no-record/sendError outcome (the conclusion holds for every
`hasPath`/`unlinkOk` configuration). -/
theorem chunk_failure_aborts_upload (env : ProcEnv) (j : Nat)
    (hsite : env.siteInfo = .ok)
    (hbuf : env.mainFile.hasBuffer = true)
    (hlarge : maxChunkSize ≤ env.mainFile.size)
    (hsession : env.sessionCreate = .ok)
    (hok : ∀ i, i < j → env.chunkOk i = true)
    (hfail : env.chunkOk j = false)
    (hreach : maxChunkSize * j < env.mainFile.size) :
    (processUpload env).recordCreated = false ∧
    (processUpload env).terminal = .error (env.chunkErrMsg j) ∧
    (env.mainFile.hasPath = true →
      (processUpload env).mainCleanupAttempted = true) ∧
    (∀ t, env.thumbnail = some t → t.hasPath = true →
      (env.mainFile.hasPath = false ∨ env.mainFile.unlinkOk = true) →
      (processUpload env).thumbCleanupAttempted = true) := by
  have hchunks := runChunksAux_first_fail env.mainFile.size env.chunkOk
    env.chunkErrMsg j hok hfail hreach j 0 (by omega)
  rw [Nat.mul_zero] at hchunks
  have hmain : uploadMainResult env = .error (env.chunkErrMsg j) := by
    unfold uploadMainResult
    rw [hbuf]
    simp only [Bool.not_true, Bool.false_eq_true, if_false]
    rw [if_neg (Nat.not_lt.mpr hlarge), hsession]
    exact hchunks
  have hproc : processUpload env =
      errorCleanup env (env.chunkErrMsg j) false false false := by
    unfold processUpload
    rw [hsite, hmain]
  rw [hproc]
  unfold errorCleanup
  refine ⟨rfl, rfl, ?_, ?_⟩
  · intro hpath
    simp [hpath]
  · intro t ht hpath hdisj
    rcases hdisj with hmp | hul
    · simp [ht, hpath, hmp]
    · simp [ht, hpath, hul]

/-- A concrete failure environment: 10 MiB main file, thumbnail present, all
infrastructure steps fine, but the second chunk PUT (index 1) is rejected by
the remote store. -/
def sampleMainFile : TempFile :=
  { size := 10485760, hasBuffer := true, hasPath := true, unlinkOk := true }

def sampleThumbFile : TempFile :=
  { size := 100, hasBuffer := true, hasPath := true, unlinkOk := true }

def sampleFailEnv : ProcEnv :=
  { mainFile := sampleMainFile,
    thumbnail := some sampleThumbFile,
    siteInfo := .ok, sessionCreate := .ok, simplePut := .ok,
    chunkOk := fun i => i != 1,
    chunkErrMsg := fun _ => "remote failure",
    thumbUpload := .ok, dbCreate := .ok, urlsStep := .ok }

/-- Witness for C6: chunk 2 of 3 (index 1) of a 10 MiB upload fails. -/
theorem chunk_failure_aborts_upload_witness :
    (sampleFailEnv.siteInfo = .ok ∧
     sampleFailEnv.mainFile.hasBuffer = true ∧
     maxChunkSize ≤ sampleFailEnv.mainFile.size ∧
     sampleFailEnv.sessionCreate = .ok ∧
     (∀ i, i < 1 → sampleFailEnv.chunkOk i = true) ∧
     sampleFailEnv.chunkOk 1 = false ∧
     maxChunkSize * 1 < sampleFailEnv.mainFile.size) ∧
    (processUpload sampleFailEnv).recordCreated = false ∧
    (processUpload sampleFailEnv).terminal =
      .error (sampleFailEnv.chunkErrMsg 1) ∧
    (processUpload sampleFailEnv).mainCleanupAttempted = true ∧
    (processUpload sampleFailEnv).thumbCleanupAttempted = true := by
  have h := chunk_failure_aborts_upload sampleFailEnv 1 rfl rfl (by decide)
    rfl (by decide) (by decide) (by decide)
  refine ⟨⟨rfl, rfl, by decide, rfl, by decide, by decide, by decide⟩,
    h.1, h.2.1, h.2.2.1 rfl, ?_⟩
  exact h.2.2.2 sampleThumbFile rfl rfl (Or.inr rfl)
